import Mathlib

/-!
Verification development for the `wc` word-count utility (src/wc.cpp).

The source is a single C++ file.  We embed it shallowly:

* bytes are `Nat` values (the program reads `unsigned char`s, 0..255);
* the counter loop of `wc` (src/wc.cpp lines 184-253) becomes a fold of a
  per-byte step function over the list of input bytes — the chunked reads of
  the C++ loop are invisible to the counters because all running state
  (`stats`, `line_pos`, `in_word`) is carried across chunk boundaries;
* the `std::uintmax_t` counters inside the single-file pass are modelled as
  `Nat`: no branch of the loop depends on their machine width.  The one place
  whose meaning *does* depend on the width — the wraparound test
  `a + b < a` inside `chkd_add` — is modelled with an explicit `% 2 ^ 64`;
* a stream is a list of bytes together with a `bad` flag: the bytes the
  stream delivers before end-of-input, and whether the stream ended by going
  bad (an I/O fault) instead of a clean end-of-file;
* character classification follows the "C"/ASCII locale, the required
  minimum of the program (`isspace`: 0x09-0x0D and 0x20; `isprint`:
  0x20-0x7E).
-/

/-- C locale `isspace`: tab, newline, vertical tab, form feed, carriage
return, space (bytes 0x09-0x0D and 0x20). -/
def isspace (c : Nat) : Bool :=
  decide ((9 ≤ c ∧ c ≤ 13) ∨ c = 32)

/-- C locale `isprint`: bytes 0x20-0x7E. -/
def isprint (c : Nat) : Bool :=
  decide (32 ≤ c ∧ c ≤ 126)

/-- The four counting flags (src/wc.cpp lines 19-24). -/
structure Options where
  count_bytes : Bool
  count_lines : Bool
  count_words : Bool
  count_max_line_length : Bool
deriving DecidableEq

/-- The four counters (src/wc.cpp lines 26-31).  `std::uintmax_t` in the
source, modelled as `Nat` (see the header comment). -/
structure FileStatistics where
  lines : Nat
  words : Nat
  bytes : Nat
  max_line_length : Nat
deriving DecidableEq

/-- The running state of the classification loop of `wc`: the counters
`stats`, the current display column `line_pos`, and the `in_word` flag. -/
structure WcState where
  stats : FileStatistics
  line_pos : Nat
  in_word : Bool
deriving DecidableEq

/-- Zero-initialised loop state (`FileStatistics stats {}`, `line_pos = 0`,
`in_word = false`). -/
def initState : WcState :=
  ⟨⟨0, 0, 0, 0⟩, 0, false⟩

/-- One iteration of the `switch` in the classification loop of `wc`
(src/wc.cpp lines 210-242), processing one byte `c`. -/
def wcStep (st : WcState) (c : Nat) : WcState :=
  if c = 10 then
    -- '\n': ++stats.lines, then fall through to the '\r'/'\f' handling
    { stats := { st.stats with
        lines := st.stats.lines + 1,
        max_line_length := max st.line_pos st.stats.max_line_length },
      line_pos := 0, in_word := false }
  else if c = 13 ∨ c = 12 then
    -- '\r', '\f'
    { stats := { st.stats with
        max_line_length := max st.line_pos st.stats.max_line_length },
      line_pos := 0, in_word := false }
  else if c = 9 then
    -- '\t': line_pos += tab_width - (line_pos % tab_width), tab_width = 8
    { st with line_pos := st.line_pos + (8 - st.line_pos % 8),
              in_word := false }
  else if c = 32 then
    -- ' ': ++line_pos, then fall through to the '\v' handling
    { st with line_pos := st.line_pos + 1, in_word := false }
  else if c = 11 then
    -- '\v'
    { st with in_word := false }
  else
    -- default: line_pos += isprint(c) != 0; in_word2 = !isspace(c);
    --          stats.words += !in_word & in_word2; in_word = in_word2
    let in_word2 := !(isspace c)
    { stats := { st.stats with
        words := st.stats.words + (if !st.in_word && in_word2 then 1 else 0) },
      line_pos := st.line_pos + (if isprint c then 1 else 0),
      in_word := in_word2 }

/-- The classification loop of `wc` over all delivered bytes. -/
def wcLoop (st : WcState) (input : List Nat) : WcState :=
  input.foldl wcStep st

/-- The loop state after the read loop of `wc`: the per-byte classification
runs only when one of lines / max-line-length / words is requested
(src/wc.cpp lines 205-206); the byte counter is handled separately. -/
def wcLoopState (opts : Options) (input : List Nat) : WcState :=
  if opts.count_lines || opts.count_max_line_length || opts.count_words then
    wcLoop initState input
  else
    initState

/-- The statistics `wc` produces on a clean read of `input` (src/wc.cpp
lines 184-253): `stats.bytes += count` accumulates every chunk's length,
summing to the input length; after the loop,
`stats.max_line_length = max(line_pos, stats.max_line_length)`. -/
def wc (opts : Options) (input : List Nat) : FileStatistics :=
  let st := wcLoopState opts input
  { st.stats with
      bytes := st.stats.bytes + input.length,
      max_line_length := max st.line_pos st.stats.max_line_length }

/-- Result of `wc` on a stream: if the stream ended bad (`is.bad()`,
src/wc.cpp lines 249-251) the partial statistics are discarded and a bare
read error is returned; otherwise the statistics. -/
def wcResult (opts : Options) (input : List Nat) (bad : Bool) :
    Except Unit FileStatistics :=
  if bad then .error () else .ok (wc opts input)

/-! ### Specification-side byte-stream measures -/

/-- The number of occurrences of byte `b` in a list. -/
def countByte (b : Nat) : List Nat → Nat
  | [] => 0
  | c :: rest => (if c = b then 1 else 0) + countByte b rest

/-- Whether a word may start after `prev`: at the beginning of the input
(`none`), or after a whitespace byte. -/
def prevBreaks : Option Nat → Bool
  | none => true
  | some p => isspace p

/-- The number of maximal runs of non-whitespace bytes in the input,
counted by their first byte: position `i` starts a maximal run exactly when
byte `i` is non-whitespace and is either first or preceded by whitespace.
`prev` is the byte before the current suffix (`none` at the start). -/
def runStarts (prev : Option Nat) : List Nat → Nat
  | [] => 0
  | c :: rest =>
      (if !(isspace c) && prevBreaks prev then 1 else 0) + runStarts (some c) rest

/-- Word count by the loop's own bookkeeping: `inw` is the `in_word` flag
entering the suffix. -/
def wordCountFrom (inw : Bool) : List Nat → Nat
  | [] => 0
  | c :: rest =>
      (if !inw && !(isspace c) then 1 else 0) + wordCountFrom (!(isspace c)) rest

/-! ### Per-step lemmas for the classification loop -/

theorem isspace_false_of_cases {c : Nat} (h1 : ¬c = 10) (h2 : ¬(c = 13 ∨ c = 12))
    (h3 : ¬c = 9) (h4 : ¬c = 32) (h5 : ¬c = 11) : isspace c = false := by
  simp only [isspace, decide_eq_false_iff_not]
  omega

theorem wcStep_lines (st : WcState) (c : Nat) :
    (wcStep st c).stats.lines = st.stats.lines + (if c = 10 then 1 else 0) := by
  by_cases h1 : c = 10
  · subst h1; simp [wcStep]
  · by_cases h2 : c = 13 ∨ c = 12
    · rcases h2 with h | h <;> subst h <;> simp [wcStep]
    · by_cases h3 : c = 9
      · subst h3; simp [wcStep]
      · by_cases h4 : c = 32
        · subst h4; simp [wcStep]
        · by_cases h5 : c = 11
          · subst h5; simp [wcStep]
          · simp [wcStep, h1, h2, h3, h4, h5]

theorem wcStep_bytes (st : WcState) (c : Nat) :
    (wcStep st c).stats.bytes = st.stats.bytes := by
  by_cases h1 : c = 10
  · subst h1; simp [wcStep]
  · by_cases h2 : c = 13 ∨ c = 12
    · rcases h2 with h | h <;> subst h <;> simp [wcStep]
    · by_cases h3 : c = 9
      · subst h3; simp [wcStep]
      · by_cases h4 : c = 32
        · subst h4; simp [wcStep]
        · by_cases h5 : c = 11
          · subst h5; simp [wcStep]
          · simp [wcStep, h1, h2, h3, h4, h5]

theorem wcStep_in_word (st : WcState) (c : Nat) :
    (wcStep st c).in_word = !(isspace c) := by
  by_cases h1 : c = 10
  · subst h1; simp [wcStep, isspace]
  · by_cases h2 : c = 13 ∨ c = 12
    · rcases h2 with h | h <;> subst h <;> simp [wcStep, isspace]
    · by_cases h3 : c = 9
      · subst h3; simp [wcStep, isspace]
      · by_cases h4 : c = 32
        · subst h4; simp [wcStep, isspace]
        · by_cases h5 : c = 11
          · subst h5; simp [wcStep, isspace]
          · simp [wcStep, h1, h2, h3, h4, h5]

theorem wcStep_words (st : WcState) (c : Nat) :
    (wcStep st c).stats.words
      = st.stats.words + (if !st.in_word && !(isspace c) then 1 else 0) := by
  by_cases h1 : c = 10
  · subst h1; simp [wcStep, isspace]
  · by_cases h2 : c = 13 ∨ c = 12
    · rcases h2 with h | h <;> subst h <;> simp [wcStep, isspace]
    · by_cases h3 : c = 9
      · subst h3; simp [wcStep, isspace]
      · by_cases h4 : c = 32
        · subst h4; simp [wcStep, isspace]
        · by_cases h5 : c = 11
          · subst h5; simp [wcStep, isspace]
          · simp [wcStep, h1, h2, h3, h4, h5]

/-! ### Loop-level lemmas -/

theorem wcLoop_nil (st : WcState) : wcLoop st [] = st := rfl

theorem wcLoop_cons (st : WcState) (c : Nat) (rest : List Nat) :
    wcLoop st (c :: rest) = wcLoop (wcStep st c) rest := rfl

theorem wcLoop_lines (input : List Nat) : ∀ st : WcState,
    (wcLoop st input).stats.lines = st.stats.lines + countByte 10 input := by
  induction input with
  | nil => intro st; simp [wcLoop, countByte]
  | cons c rest ih =>
      intro st
      rw [wcLoop_cons, ih (wcStep st c), wcStep_lines]
      simp only [countByte]
      omega

theorem wcLoop_bytes (input : List Nat) : ∀ st : WcState,
    (wcLoop st input).stats.bytes = st.stats.bytes := by
  induction input with
  | nil => intro st; rfl
  | cons c rest ih =>
      intro st
      rw [wcLoop_cons, ih (wcStep st c), wcStep_bytes]

theorem wcLoop_words (input : List Nat) : ∀ st : WcState,
    (wcLoop st input).stats.words
      = st.stats.words + wordCountFrom st.in_word input := by
  induction input with
  | nil => intro st; simp [wcLoop, wordCountFrom]
  | cons c rest ih =>
      intro st
      rw [wcLoop_cons, ih (wcStep st c), wcStep_words, wcStep_in_word]
      simp only [wordCountFrom]
      omega

theorem wordCountFrom_eq_runStarts (input : List Nat) : ∀ prev : Option Nat,
    wordCountFrom (!(prevBreaks prev)) input = runStarts prev input := by
  induction input with
  | nil => intro prev; rfl
  | cons c rest ih =>
      intro prev
      simp only [wordCountFrom, runStarts]
      have hcond : (!(!(prevBreaks prev)) && !(isspace c))
          = (!(isspace c) && prevBreaks prev) := by
        cases h : prevBreaks prev <;> cases h2 : isspace c <;> rfl
      rw [hcond]
      have hrest : wordCountFrom (!(isspace c)) rest = runStarts (some c) rest :=
        ih (some c)
      rw [hrest]

/-! ### Claims C1-C4: the counter -/

/-- C1: with word counting requested, the reported `words` counter equals the
number of maximal runs of non-whitespace bytes in the stream (ASCII
classification); in particular the input "  hello   world  " yields
`words = 2`. -/
theorem words_counts_maximal_runs :
    (∀ (opts : Options) (input : List Nat), opts.count_words = true →
        (wc opts input).words = runStarts none input)
    ∧ (wc ⟨false, false, true, false⟩
        [32, 32, 104, 101, 108, 108, 111, 32, 32, 32,
         119, 111, 114, 108, 100, 32, 32]).words = 2 := by
  constructor
  · intro opts input h
    have hgate : (opts.count_lines || opts.count_max_line_length ||
        opts.count_words) = true := by simp [h]
    have h1 : (wc opts input).words = (wcLoopState opts input).stats.words := rfl
    rw [h1]
    unfold wcLoopState
    rw [if_pos hgate, wcLoop_words]
    have h2 := wordCountFrom_eq_runStarts input none
    simp only [prevBreaks, Bool.not_true] at h2
    simpa [initState] using h2
  · decide

theorem words_counts_maximal_runs_witness :
    (wc ⟨true, true, true, true⟩ [104, 105, 32, 121, 111]).words
      = runStarts none [104, 105, 32, 121, 111] :=
  words_counts_maximal_runs.1 ⟨true, true, true, true⟩ [104, 105, 32, 121, 111] rfl

/-- C2: with line counting requested, the reported `lines` counter equals the
number of 0x0A bytes in the stream, whether or not the stream ends with one;
carriage returns and form feeds do not increment it. -/
theorem lines_counts_newlines :
    ∀ (opts : Options) (input : List Nat), opts.count_lines = true →
      (wc opts input).lines = countByte 10 input := by
  intro opts input h
  have hgate : (opts.count_lines || opts.count_max_line_length ||
      opts.count_words) = true := by simp [h]
  have h1 : (wc opts input).lines = (wcLoopState opts input).stats.lines := rfl
  rw [h1]
  unfold wcLoopState
  rw [if_pos hgate, wcLoop_lines]
  simp [initState]

theorem lines_counts_newlines_witness :
    (wc ⟨true, true, true, true⟩ [97, 10, 13, 12, 10]).lines
      = countByte 10 [97, 10, 13, 12, 10] :=
  lines_counts_newlines ⟨true, true, true, true⟩ [97, 10, 13, 12, 10] rfl

/-- C3: for every input and every flag selection, the reported `bytes`
counter equals the exact length in bytes of the input. -/
theorem bytes_counts_length :
    ∀ (opts : Options) (input : List Nat), (wc opts input).bytes = input.length := by
  intro opts input
  have h1 : (wc opts input).bytes
      = (wcLoopState opts input).stats.bytes + input.length := rfl
  rw [h1]
  unfold wcLoopState
  split
  · rw [wcLoop_bytes]
    simp [initState]
  · simp [initState]

/-- C4: the max-line-length counter tracks a display column that a tab
advances to the next multiple of 8, that newline/carriage-return/form-feed
fold into the maximum and reset to 0, and that is folded into the maximum
once more at end of input; maxLineLength of "" is 0, of "abc" is 3, of
"abc\n" is 3, and of "a\tb" is 9. -/
theorem max_line_length_spec :
    (∀ st : WcState, (wcStep st 9).line_pos = st.line_pos + (8 - st.line_pos % 8))
    ∧ (∀ (st : WcState) (c : Nat), c = 10 ∨ c = 13 ∨ c = 12 →
        (wcStep st c).line_pos = 0 ∧
        (wcStep st c).stats.max_line_length = max st.line_pos st.stats.max_line_length)
    ∧ (∀ (opts : Options) (input : List Nat),
        (wc opts input).max_line_length
          = max (wcLoopState opts input).line_pos
              (wcLoopState opts input).stats.max_line_length)
    ∧ (wc ⟨false, false, false, true⟩ []).max_line_length = 0
    ∧ (wc ⟨false, false, false, true⟩ [97, 98, 99]).max_line_length = 3
    ∧ (wc ⟨false, false, false, true⟩ [97, 98, 99, 10]).max_line_length = 3
    ∧ (wc ⟨false, false, false, true⟩ [97, 9, 98]).max_line_length = 9 := by
  refine ⟨?_, ?_, ?_, by decide, by decide, by decide, by decide⟩
  · intro st
    simp [wcStep]
  · intro st c h
    rcases h with h | h | h <;> subst h <;> simp [wcStep]
  · intro opts input
    rfl

theorem max_line_length_spec_witness :
    (wcStep initState 9).line_pos = initState.line_pos + (8 - initState.line_pos % 8)
    ∧ (wcStep initState 10).line_pos = 0
    ∧ (wcStep initState 10).stats.max_line_length
        = max initState.line_pos initState.stats.max_line_length :=
  ⟨max_line_length_spec.1 initState,
   (max_line_length_spec.2.1 initState 10 (Or.inl rfl)).1,
   (max_line_length_spec.2.1 initState 10 (Or.inl rfl)).2⟩

/-! ### Checked addition and the driver -/

/-- Number of values of `std::uintmax_t` on the target platform (64-bit). -/
def uintmaxCard : Nat := 2 ^ 64

/-- Checked addition `chkd_add` (src/wc.cpp lines 92-100).  The C expression `a + b` wraps
modulo `2 ^ 64`; the function returns `false` (here `none`, `res` not
written) when `a + b < a`, i.e. when the addition wrapped, and otherwise
writes `res = a + b` and returns `true` (here `some`). -/
def chkd_add (a b : Nat) : Option Nat :=
  if (a + b) % uintmaxCard < a then none else some ((a + b) % uintmaxCard)

/-- One line written to standard output by `write_counts`: the statistics
and the trailing source name (`none` when `write_counts` gets a null
`file`). -/
structure OutLine where
  stats : FileStatistics
  name : Option String
deriving DecidableEq

/-- One diagnostic written to standard error by the driver. -/
inductive Diag where
  | readErr (file : String)
  | isDir (file : String)
  | noSuchFile (file : String)
  | overflow (field : String)
deriving DecidableEq

/-- A positional argument, classified the way `main` classifies it
(src/wc.cpp lines 339-362): a directory, a regular file together with the
byte stream its `ifstream` delivers, the literal `-` (standard input), or a
path that is none of these ("No such file or directory").  A stream is its
delivered bytes plus whether it ended bad. -/
inductive Arg where
  | dir (name : String)
  | file (name : String) (content : List Nat) (bad : Bool)
  | dash (content : List Nat) (bad : Bool)
  | missing (name : String)
deriving DecidableEq

/-- The accumulating `wc_file` overload (src/wc.cpp lines 255-288): returns
(output lines, diagnostics, updated running total, success flag).  On a
read fault: diagnostic only, `EXIT_SUCCESS` ("we only want to exit on
overflow").  Otherwise write the counts; when `nfiles > 1`, fold
`max_line_length` by maximum and lines/words/bytes by `chkd_add` in that
order, stopping with `EXIT_FAILURE` at the first overflow. -/
def wc_file_acc (opts : Options) (input : List Nat) (bad : Bool) (name : String)
    (nfiles : Nat) (total : FileStatistics) :
    List OutLine × List Diag × FileStatistics × Bool :=
  match wcResult opts input bad with
  | .error _ => ([], [Diag.readErr name], total, true)
  | .ok stats =>
    if 1 < nfiles then
      let total1 : FileStatistics :=
        { total with max_line_length := max stats.max_line_length total.max_line_length }
      match chkd_add total1.lines stats.lines with
      | none => ([⟨stats, some name⟩], [Diag.overflow "lines"], total1, false)
      | some l =>
        match chkd_add total1.words stats.words with
        | none => ([⟨stats, some name⟩], [Diag.overflow "words"],
            { total1 with lines := l }, false)
        | some w =>
          match chkd_add total1.bytes stats.bytes with
          | none => ([⟨stats, some name⟩], [Diag.overflow "bytes"],
              { total1 with lines := l, words := w }, false)
          | some b => ([⟨stats, some name⟩], [],
              { total1 with lines := l, words := w, bytes := b }, true)
    else ([⟨stats, some name⟩], [], total, true)

/-- The standard-input `wc_file` overload (src/wc.cpp lines 290-304):
on a read fault, a diagnostic for `file` and `EXIT_FAILURE`; otherwise the
counts are written with a null name. -/
def wc_file_stdin (opts : Options) (input : List Nat) (bad : Bool)
    (file : String) : List OutLine × List Diag × Bool :=
  match wcResult opts input bad with
  | .error _ => ([], [Diag.readErr file], false)
  | .ok stats => ([⟨stats, none⟩], [], true)

/-- The argument loop of `main` (src/wc.cpp lines 339-362): returns output
lines, diagnostics, the final running total, and `false` when some
`wc_file` call returned `EXIT_FAILURE`, in which case `main` returns
immediately and the remaining arguments are not processed. -/
def mainLoop (opts : Options) (nfiles : Nat) (total : FileStatistics) :
    List Arg → List OutLine × List Diag × FileStatistics × Bool
  | [] => ([], [], total, true)
  | Arg.dir d :: rest =>
    let r := mainLoop opts nfiles total rest
    (⟨⟨0, 0, 0, 0⟩, some d⟩ :: r.1, Diag.isDir d :: r.2.1, r.2.2.1, r.2.2.2)
  | Arg.file n content bad :: rest =>
    let r1 := wc_file_acc opts content bad n nfiles total
    if r1.2.2.2 then
      let r := mainLoop opts nfiles r1.2.2.1 rest
      (r1.1 ++ r.1, r1.2.1 ++ r.2.1, r.2.2.1, r.2.2.2)
    else r1
  | Arg.dash content bad :: rest =>
    let r1 := wc_file_acc opts content bad "-" nfiles total
    if r1.2.2.2 then
      let r := mainLoop opts nfiles r1.2.2.1 rest
      (r1.1 ++ r.1, r1.2.1 ++ r.2.1, r.2.2.1, r.2.2.2)
    else r1
  | Arg.missing m :: rest =>
    let r := mainLoop opts nfiles total rest
    (r.1, Diag.noSuchFile m :: r.2.1, r.2.2.1, r.2.2.2)

/-- Model of `main` after flag parsing (src/wc.cpp lines 331-367).  With no
positional arguments, count standard input (diagnosed as "stdin", printed
with no name) and exit with that result.  Otherwise loop over the arguments
with `nfiles = argc - optind` and, if the loop succeeded and `nfiles > 1`,
append the line labeled "total".  Result: (output lines, diagnostics, exit
status). -/
def runMain (opts : Options) (stdinInput : List Nat) (stdinBad : Bool) :
    List Arg → List OutLine × List Diag × Nat
  | [] =>
    let r := wc_file_stdin opts stdinInput stdinBad "stdin"
    (r.1, r.2.1, if r.2.2 then 0 else 1)
  | a :: args =>
    let r := mainLoop opts (a :: args).length ⟨0, 0, 0, 0⟩ (a :: args)
    if r.2.2.2 then
      (r.1 ++ (if 1 < (a :: args).length then [⟨r.2.2.1, some "total"⟩] else []),
       r.2.1, 0)
    else (r.1, r.2.1, 1)

/-! ### Claims C5-C9: totals, overflow and the driver -/

/-- C5 counterexample: folding the statistics of input "abcde"
(max_line_length 5) into a running total with max_line_length 3 yields
total max_line_length 5 = max 3 5 — not the overflow-checked sum, which
would be 8 (`chkd_add 3 5 = some 8`). -/
theorem mll_folded_by_max_not_add :
    (wc_file_acc ⟨false, false, false, true⟩ [97, 98, 99, 100, 101] false "f" 2
        ⟨0, 0, 0, 3⟩).2.2.1.max_line_length = 5
    ∧ chkd_add 3 5 = some 8
    ∧ (5 : Nat) ≠ 8 :=
  ⟨by decide, by decide, by decide⟩

/-- C5 (amended): when more than one source is processed, each per-source
FileStatistics is folded into the RunningTotal by overflow-checked addition
for lines, words and bytes, while max_line_length is folded by taking the
maximum of the two values. -/
theorem total_fold_checked_add_and_max :
    ∀ (opts : Options) (input : List Nat) (name : String) (nfiles : Nat)
      (total : FileStatistics) (l w b : Nat),
      1 < nfiles →
      chkd_add total.lines (wc opts input).lines = some l →
      chkd_add total.words (wc opts input).words = some w →
      chkd_add total.bytes (wc opts input).bytes = some b →
      wc_file_acc opts input false name nfiles total
        = ([⟨wc opts input, some name⟩], [],
           ⟨l, w, b, max (wc opts input).max_line_length total.max_line_length⟩,
           true) := by
  intro opts input name nfiles total l w b h1 h2 h3 h4
  simp [wc_file_acc, wcResult, h1, h2, h3, h4]

theorem total_fold_checked_add_and_max_witness :
    wc_file_acc ⟨true, true, true, true⟩ [97, 10] false "f" 2 ⟨1, 2, 3, 4⟩
      = ([⟨wc ⟨true, true, true, true⟩ [97, 10], some "f"⟩], [],
         ⟨2, 3, 5, max (wc ⟨true, true, true, true⟩ [97, 10]).max_line_length 4⟩,
         true) :=
  total_fold_checked_add_and_max ⟨true, true, true, true⟩ [97, 10] "f" 2
    ⟨1, 2, 3, 4⟩ 2 3 5 (by decide) (by decide) (by decide) (by decide)

/-- C6: the `chkd_add` guard `a + b < a` fires exactly when the exact sum
exceeds the maximum representable `uintmax_t` value; when adding a source's
lines, words, or bytes into the running total overflows (each of the three
triggers), the argument loop stops with `EXIT_FAILURE` and a diagnostic,
processing no further arguments and leaving the overflowed counter
unwrapped (counters written before the failing one keep their checked
sums, as in the source); and a failed loop makes `main` exit with status 1
emitting exactly the loop's output — no "total" line is appended (it is
appended only on a successful loop). -/
theorem overflow_is_fatal :
    (∀ a b : Nat, a < uintmaxCard → b < uintmaxCard →
        (chkd_add a b = none ↔ uintmaxCard ≤ a + b))
    ∧ (∀ (opts : Options) (nfiles : Nat) (total : FileStatistics)
        (n : String) (content : List Nat) (rest : List Arg),
        1 < nfiles →
        chkd_add total.lines (wc opts content).lines = none →
        mainLoop opts nfiles total (Arg.file n content false :: rest)
          = ([⟨wc opts content, some n⟩], [Diag.overflow "lines"],
             ⟨total.lines, total.words, total.bytes,
              max (wc opts content).max_line_length total.max_line_length⟩,
             false))
    ∧ (∀ (opts : Options) (nfiles : Nat) (total : FileStatistics)
        (n : String) (content : List Nat) (rest : List Arg) (l : Nat),
        1 < nfiles →
        chkd_add total.lines (wc opts content).lines = some l →
        chkd_add total.words (wc opts content).words = none →
        mainLoop opts nfiles total (Arg.file n content false :: rest)
          = ([⟨wc opts content, some n⟩], [Diag.overflow "words"],
             ⟨l, total.words, total.bytes,
              max (wc opts content).max_line_length total.max_line_length⟩,
             false))
    ∧ (∀ (opts : Options) (nfiles : Nat) (total : FileStatistics)
        (n : String) (content : List Nat) (rest : List Arg) (l w : Nat),
        1 < nfiles →
        chkd_add total.lines (wc opts content).lines = some l →
        chkd_add total.words (wc opts content).words = some w →
        chkd_add total.bytes (wc opts content).bytes = none →
        mainLoop opts nfiles total (Arg.file n content false :: rest)
          = ([⟨wc opts content, some n⟩], [Diag.overflow "bytes"],
             ⟨l, w, total.bytes,
              max (wc opts content).max_line_length total.max_line_length⟩,
             false))
    ∧ (∀ (opts : Options) (stdinInput : List Nat) (stdinBad : Bool)
        (a : Arg) (args : List Arg),
        (runMain opts stdinInput stdinBad (a :: args)).2.2
          = (if (mainLoop opts (a :: args).length ⟨0, 0, 0, 0⟩ (a :: args)).2.2.2
             then 0 else 1))
    ∧ (∀ (opts : Options) (stdinInput : List Nat) (stdinBad : Bool)
        (a : Arg) (args : List Arg),
        (runMain opts stdinInput stdinBad (a :: args)).1
          = (if (mainLoop opts (a :: args).length ⟨0, 0, 0, 0⟩ (a :: args)).2.2.2
             then (mainLoop opts (a :: args).length ⟨0, 0, 0, 0⟩ (a :: args)).1
               ++ (if 1 < (a :: args).length
                   then [⟨(mainLoop opts (a :: args).length ⟨0, 0, 0, 0⟩
                            (a :: args)).2.2.1, some "total"⟩]
                   else [])
             else (mainLoop opts (a :: args).length ⟨0, 0, 0, 0⟩ (a :: args)).1)) := by
  refine ⟨?_, ?_, ?_, ?_, ?_, ?_⟩
  · intro a b ha hb
    unfold chkd_add
    rcases Nat.lt_or_ge (a + b) uintmaxCard with h | h
    · have hc : ¬((a + b) % uintmaxCard < a) := by
        rw [Nat.mod_eq_of_lt h]
        omega
      rw [if_neg hc]
      constructor
      · intro hx
        exact absurd hx (by simp)
      · intro hx
        exact absurd hx (by omega)
    · have hmod : (a + b) % uintmaxCard = a + b - uintmaxCard := by
        rw [Nat.mod_eq_sub_mod h, Nat.mod_eq_of_lt (by omega)]
      have hc : (a + b) % uintmaxCard < a := by
        rw [hmod]
        omega
      rw [if_pos hc]
      constructor
      · intro _
        exact h
      · intro _
        rfl
  · intro opts nfiles total n content rest h1 h2
    simp [mainLoop, wc_file_acc, wcResult, h1, h2]
  · intro opts nfiles total n content rest l h1 h2 h3
    simp [mainLoop, wc_file_acc, wcResult, h1, h2, h3]
  · intro opts nfiles total n content rest l w h1 h2 h3 h4
    simp [mainLoop, wc_file_acc, wcResult, h1, h2, h3, h4]
  · intro opts stdinInput stdinBad a args
    simp only [runMain]
    split <;> rfl
  · intro opts stdinInput stdinBad a args
    simp only [runMain]
    split <;> rfl

theorem overflow_is_fatal_witness :
    chkd_add (uintmaxCard - 1) 1 = none
    ∧ mainLoop ⟨true, true, true, true⟩ 2 ⟨uintmaxCard - 1, 0, 0, 0⟩
        [Arg.file "a" [10] false, Arg.missing "z"]
      = ([⟨wc ⟨true, true, true, true⟩ [10], some "a"⟩], [Diag.overflow "lines"],
         ⟨uintmaxCard - 1, 0, 0, 0⟩, false)
    ∧ mainLoop ⟨true, true, true, true⟩ 2 ⟨0, uintmaxCard - 1, 0, 0⟩
        [Arg.file "a" [97] false, Arg.missing "z"]
      = ([⟨wc ⟨true, true, true, true⟩ [97], some "a"⟩], [Diag.overflow "words"],
         ⟨0, uintmaxCard - 1, 0, 1⟩, false)
    ∧ mainLoop ⟨true, true, true, true⟩ 2 ⟨0, 0, uintmaxCard - 1, 0⟩
        [Arg.file "a" [97] false, Arg.missing "z"]
      = ([⟨wc ⟨true, true, true, true⟩ [97], some "a"⟩], [Diag.overflow "bytes"],
         ⟨0, 1, uintmaxCard - 1, 1⟩, false) := by
  refine ⟨?_, ?_, ?_, ?_⟩
  · exact (overflow_is_fatal.1 (uintmaxCard - 1) 1 (by decide) (by decide)).mpr
      (by decide)
  · have h := overflow_is_fatal.2.1 ⟨true, true, true, true⟩ 2
      ⟨uintmaxCard - 1, 0, 0, 0⟩ "a" [10] [Arg.missing "z"] (by decide) (by decide)
    simpa using h
  · have h := overflow_is_fatal.2.2.1 ⟨true, true, true, true⟩ 2
      ⟨0, uintmaxCard - 1, 0, 0⟩ "a" [97] [Arg.missing "z"] 0
      (by decide) (by decide) (by decide)
    have hm : (wc ⟨true, true, true, true⟩ [97]).max_line_length = 1 := by decide
    simpa [hm] using h
  · have h := overflow_is_fatal.2.2.2.1 ⟨true, true, true, true⟩ 2
      ⟨0, 0, uintmaxCard - 1, 0⟩ "a" [97] [Arg.missing "z"] 0 1
      (by decide) (by decide) (by decide) (by decide)
    have hm : (wc ⟨true, true, true, true⟩ [97]).max_line_length = 1 := by decide
    simpa [hm] using h

/-- C7 counterexample: with the two arguments being a regular (empty) file
"a" and a nonexistent path "b", only one source is actually processed ("b"
yields only a diagnostic), yet a line labeled "total" IS emitted. -/
theorem total_line_despite_single_processed :
    runMain ⟨true, true, true, false⟩ [] false
        [Arg.file "a" [] false, Arg.missing "b"]
      = ([⟨⟨0, 0, 0, 0⟩, some "a"⟩, ⟨⟨0, 0, 0, 0⟩, some "total"⟩],
         [Diag.noSuchFile "b"], 0) := by
  decide

/-- C7 (amended): the "total" line is emitted exactly when more than one
positional argument was given (`nfiles = argc - optind > 1`), regardless of
how many of those arguments were actually processed: on a successful
argument loop the output is the loop's lines followed by the "total" line
iff the argument count exceeds one. -/
theorem total_line_iff_multiple_args :
    ∀ (opts : Options) (stdinInput : List Nat) (stdinBad : Bool)
      (a : Arg) (args : List Arg),
      (mainLoop opts (a :: args).length ⟨0, 0, 0, 0⟩ (a :: args)).2.2.2 = true →
      runMain opts stdinInput stdinBad (a :: args)
        = ((mainLoop opts (a :: args).length ⟨0, 0, 0, 0⟩ (a :: args)).1
            ++ (if 1 < (a :: args).length
                then [⟨(mainLoop opts (a :: args).length ⟨0, 0, 0, 0⟩
                         (a :: args)).2.2.1, some "total"⟩]
                else []),
           (mainLoop opts (a :: args).length ⟨0, 0, 0, 0⟩ (a :: args)).2.1, 0) := by
  intro opts stdinInput stdinBad a args h
  simp only [runMain, h]
  rfl

theorem total_line_iff_multiple_args_witness :
    runMain ⟨true, true, true, false⟩ [] false [Arg.file "x" [10] false]
      = ((mainLoop ⟨true, true, true, false⟩ 1 ⟨0, 0, 0, 0⟩
           [Arg.file "x" [10] false]).1
          ++ (if 1 < ([Arg.file "x" [10] false] : List Arg).length
              then [⟨(mainLoop ⟨true, true, true, false⟩ 1 ⟨0, 0, 0, 0⟩
                       [Arg.file "x" [10] false]).2.2.1, some "total"⟩]
              else []),
         (mainLoop ⟨true, true, true, false⟩ 1 ⟨0, 0, 0, 0⟩
           [Arg.file "x" [10] false]).2.1, 0) :=
  total_line_iff_multiple_args ⟨true, true, true, false⟩ [] false
    (Arg.file "x" [10] false) [] (by decide)

/-- C8: a bad read yields a ReadError carrying no statistics; in a run with
positional arguments the driver reports the fault for that source and
continues with the remaining arguments, leaving the running total and the
success flag (hence the exit status) unchanged; but a read fault on the
sole implicit standard-input run (no positional arguments) exits with
status 1. -/
theorem read_fault_handling :
    (∀ (opts : Options) (input : List Nat),
        wcResult opts input true = .error ())
    ∧ (∀ (opts : Options) (nfiles : Nat) (total : FileStatistics)
        (n : String) (content : List Nat) (rest : List Arg),
        mainLoop opts nfiles total (Arg.file n content true :: rest)
          = ((mainLoop opts nfiles total rest).1,
             Diag.readErr n :: (mainLoop opts nfiles total rest).2.1,
             (mainLoop opts nfiles total rest).2.2.1,
             (mainLoop opts nfiles total rest).2.2.2))
    ∧ (∀ (opts : Options) (nfiles : Nat) (total : FileStatistics)
        (content : List Nat) (rest : List Arg),
        mainLoop opts nfiles total (Arg.dash content true :: rest)
          = ((mainLoop opts nfiles total rest).1,
             Diag.readErr "-" :: (mainLoop opts nfiles total rest).2.1,
             (mainLoop opts nfiles total rest).2.2.1,
             (mainLoop opts nfiles total rest).2.2.2))
    ∧ (∀ (opts : Options) (stdinInput : List Nat),
        runMain opts stdinInput true [] = ([], [Diag.readErr "stdin"], 1)) := by
  refine ⟨fun opts input => rfl, ?_, ?_, fun opts stdinInput => rfl⟩
  · intro opts nfiles total n content rest
    simp [mainLoop, wc_file_acc, wcResult]
  · intro opts nfiles total content rest
    simp [mainLoop, wc_file_acc, wcResult]

/-- C9: a directory argument produces an "Is a directory" diagnostic plus a
zero-valued output line for that argument; a nonexistent path produces only
a "No such file or directory" diagnostic and no output line; in both cases
the remaining arguments are still processed and the success flag (hence the
exit status) is that of the rest of the run. -/
theorem dir_and_missing_args :
    (∀ (opts : Options) (nfiles : Nat) (total : FileStatistics)
        (d : String) (rest : List Arg),
        mainLoop opts nfiles total (Arg.dir d :: rest)
          = (⟨⟨0, 0, 0, 0⟩, some d⟩ :: (mainLoop opts nfiles total rest).1,
             Diag.isDir d :: (mainLoop opts nfiles total rest).2.1,
             (mainLoop opts nfiles total rest).2.2.1,
             (mainLoop opts nfiles total rest).2.2.2))
    ∧ (∀ (opts : Options) (nfiles : Nat) (total : FileStatistics)
        (m : String) (rest : List Arg),
        mainLoop opts nfiles total (Arg.missing m :: rest)
          = ((mainLoop opts nfiles total rest).1,
             Diag.noSuchFile m :: (mainLoop opts nfiles total rest).2.1,
             (mainLoop opts nfiles total rest).2.2.1,
             (mainLoop opts nfiles total rest).2.2.2))
    ∧ runMain ⟨true, true, true, false⟩ [] false
        [Arg.dir "d", Arg.missing "m", Arg.file "f" [104, 105] false]
      = ([⟨⟨0, 0, 0, 0⟩, some "d"⟩, ⟨⟨0, 1, 2, 2⟩, some "f"⟩,
          ⟨⟨0, 1, 2, 2⟩, some "total"⟩],
         [Diag.isDir "d", Diag.noSuchFile "m"], 0) := by
  refine ⟨fun opts nfiles total d rest => rfl,
          fun opts nfiles total m rest => rfl, by decide⟩

/-! ### Flag parsing and output formatting -/

/-- Parse errors `ParseOptionsError` (src/wc.cpp lines 33-36). -/
inductive ParseOptionsError where
  | help_requested
  | unknown_option
deriving DecidableEq

/-- The `getopt_long` loop of `parse_options` (src/wc.cpp lines 136-182),
over the sequence of option characters in command-line order: each of
`c`/`l`/`L`/`w` sets its flag, `h` stops with `help_requested`, anything
else with `unknown_option`. -/
def parseGo (opts : Options) : List Char → Except ParseOptionsError Options
  | [] => .ok opts
  | c :: rest =>
    if c = 'c' then parseGo { opts with count_bytes := true } rest
    else if c = 'l' then parseGo { opts with count_lines := true } rest
    else if c = 'L' then parseGo { opts with count_max_line_length := true } rest
    else if c = 'w' then parseGo { opts with count_words := true } rest
    else if c = 'h' then .error ParseOptionsError.help_requested
    else .error ParseOptionsError.unknown_option

/-- Model of `parse_options`, starting from all-false `Options {}`. -/
def parse_options (flags : List Char) : Except ParseOptionsError Options :=
  parseGo ⟨false, false, false, false⟩ flags

/-- One formatted field of `write_counts`: two spaces, then the rendered
number right-aligned in a minimum width of 7 (the `"  {:>7L}"` format). -/
def padField (s : String) : String :=
  "  " ++ String.mk (List.replicate (7 - s.length) ' ') ++ s

/-- Model of `write_counts` (src/wc.cpp lines 102-134), as the sequence of chunks
written to the output stream: one padded field per requested counter, in
the fixed order lines, words, bytes, max_line_length; then two spaces and
the file name when one was given; then the newline.  `render` is the
locale-aware numeral rendering (`{:>7L}` groups digits per the active
locale), threaded in as a parameter. -/
def write_counts (render : Nat → String) (opts : Options)
    (stats : FileStatistics) (file : Option String) : List String :=
  (if opts.count_lines then [padField (render stats.lines)] else [])
  ++ (if opts.count_words then [padField (render stats.words)] else [])
  ++ (if opts.count_bytes then [padField (render stats.bytes)] else [])
  ++ (if opts.count_max_line_length
      then [padField (render stats.max_line_length)] else [])
  ++ (match file with
      | some f => ["  " ++ f]
      | none => [])
  ++ ["\n"]

/-- Specification-side field selection: the counter values in the canonical
order lines, words, bytes, max_line_length, keeping the requested ones. -/
def requestedFields (opts : Options) (stats : FileStatistics) : List Nat :=
  (([(opts.count_lines, stats.lines), (opts.count_words, stats.words),
     (opts.count_bytes, stats.bytes),
     (opts.count_max_line_length, stats.max_line_length)].filter
    (fun p => p.1)).map (fun p => p.2))

/-- The chunks after the counter fields: the optional name, the newline. -/
def nameTail : Option String → List String
  | some f => ["  " ++ f, "\n"]
  | none => ["\n"]

theorem parseGo_ok (flags : List Char) : ∀ (opts0 o : Options),
    parseGo opts0 flags = .ok o →
    o = ⟨opts0.count_bytes || decide ('c' ∈ flags),
         opts0.count_lines || decide ('l' ∈ flags),
         opts0.count_words || decide ('w' ∈ flags),
         opts0.count_max_line_length || decide ('L' ∈ flags)⟩ := by
  induction flags with
  | nil =>
      intro opts0 o h
      simp only [parseGo] at h
      cases h
      simp
  | cons c rest ih =>
      intro opts0 o h
      simp only [parseGo] at h
      by_cases hc : c = 'c'
      · subst hc
        rw [if_pos rfl] at h
        have := ih _ _ h
        subst this
        simp [List.mem_cons]
      · rw [if_neg hc] at h
        by_cases hl : c = 'l'
        · subst hl
          rw [if_pos rfl] at h
          have := ih _ _ h
          subst this
          simp [List.mem_cons]
        · rw [if_neg hl] at h
          by_cases hL : c = 'L'
          · subst hL
            rw [if_pos rfl] at h
            have := ih _ _ h
            subst this
            simp [List.mem_cons]
          · rw [if_neg hL] at h
            by_cases hw : c = 'w'
            · subst hw
              rw [if_pos rfl] at h
              have := ih _ _ h
              subst this
              simp [List.mem_cons]
            · rw [if_neg hw] at h
              by_cases hh : c = 'h'
              · subst hh
                rw [if_pos rfl] at h
                cases h
              · rw [if_neg hh] at h
                cases h

/-- C10: in every emitted output line the requested fields appear in the
fixed order lines, words, bytes, max-line-length, each written as two
spaces followed by the rendered value right-aligned in a seven-character
minimum width, regardless of the order in which the flags were given:
(a) flag parsing is order-insensitive — two successfully parsed flag
sequences containing the same characters produce the same Options, so the
emitted fields cannot depend on the flags' command-line order;
(b) `write_counts` emits exactly the requested fields in the canonical
order, each as one padded chunk, then the optional name and the newline;
(c) each field chunk is two spaces plus the rendered value right-aligned to
width 7: its length is 2 + max 7 (rendered length). -/
theorem output_fields_fixed_order :
    (∀ (l1 l2 : List Char) (o1 o2 : Options),
        parse_options l1 = .ok o1 → parse_options l2 = .ok o2 →
        (∀ ch : Char, ch ∈ l1 ↔ ch ∈ l2) → o1 = o2)
    ∧ (∀ (render : Nat → String) (opts : Options) (stats : FileStatistics)
        (file : Option String),
        write_counts render opts stats file
          = (requestedFields opts stats).map (fun v => padField (render v))
            ++ nameTail file)
    ∧ (∀ s : String, (padField s).length = 2 + max 7 s.length) := by
  refine ⟨?_, ?_, ?_⟩
  · intro l1 l2 o1 o2 h1 h2 hiff
    have e1 := parseGo_ok l1 _ _ h1
    have e2 := parseGo_ok l2 _ _ h2
    subst e1
    subst e2
    simp only [Options.mk.injEq, Bool.false_or]
    exact ⟨decide_eq_decide.mpr (hiff _), decide_eq_decide.mpr (hiff _),
           decide_eq_decide.mpr (hiff _), decide_eq_decide.mpr (hiff _)⟩
  · intro render opts stats file
    obtain ⟨cb, cl, cw, cm⟩ := opts
    cases cb <;> cases cl <;> cases cw <;> cases cm <;> cases file <;> rfl
  · intro s
    show (("  ".data ++ List.replicate (7 - s.length) ' ') ++ s.data).length
      = 2 + max 7 s.length
    rw [List.length_append, List.length_append, List.length_replicate]
    show 2 + (7 - s.length) + s.length = 2 + max 7 s.length
    rcases Nat.le_total 7 s.length with h | h
    · rw [Nat.max_eq_right h]
      omega
    · rw [Nat.max_eq_left h]
      omega

theorem output_fields_fixed_order_witness :
    ((⟨true, true, false, false⟩ : Options) = ⟨true, true, false, false⟩)
    ∧ write_counts (fun v => String.mk (List.replicate v 'x'))
        ⟨true, true, true, true⟩ ⟨1, 2, 3, 4⟩ (some "f")
      = (requestedFields ⟨true, true, true, true⟩ ⟨1, 2, 3, 4⟩).map
          (fun v => padField (String.mk (List.replicate v 'x')))
        ++ nameTail (some "f") :=
  ⟨output_fields_fixed_order.1 ['c', 'l'] ['l', 'c']
      ⟨true, true, false, false⟩ ⟨true, true, false, false⟩
      rfl rfl (fun ch => by simp [or_comm]),
   output_fields_fixed_order.2.1 (fun v => String.mk (List.replicate v 'x'))
      ⟨true, true, true, true⟩ ⟨1, 2, 3, 4⟩ (some "f")⟩
